import Mathlib

set_option maxRecDepth 100000

/-!
Shallow embedding of the BMP codec in src/bmp.rs together with the pixel
buffer type in src/image.rs.

A byte buffer is a `List Nat` whose entries are the `u8` values of the Rust
slice (so every entry is below 256 for any buffer that can arise at the Rust
boundary).  Little-endian reassembly uses `+` and `*`, which agrees with the
shift-and-or of the source on byte values, since the shifted summands occupy
disjoint bit ranges.  A Rust index-out-of-bounds panic (possible only in the
pixel-reading loop of `parse_image` and in the unchecked `Image.write`) is
modelled by the `POutcome.crash` outcome respectively by `Option.none`.
Machine-integer wraparound (`u32`/`i32` casts in the encoder) is made
explicit with `% 4294967296` and two-complement reinterpretation.
-/

/-- One RGBA pixel (src/image.rs, `struct RGBA`). -/
structure RGBA where
  r : Nat
  g : Nat
  b : Nat
  a : Nat
deriving DecidableEq, Repr

/-- src/image.rs: `pub const RGBA_BYTES: usize = 4`. -/
def RGBA_BYTES : Nat := 4

/-- The pixel buffer (src/image.rs, `struct Image`): raw bytes with 4 bytes
per pixel, row width in pixels, and the logical dimensions. -/
structure Image where
  data : List Nat
  row_width : Nat
  width : Nat
  height : Nat
deriving DecidableEq, Repr

/-- src/image.rs, `Image::new`: an image filled with zero bytes. -/
def Image.new (width height : Nat) : Image :=
  { data := List.replicate (RGBA_BYTES * width * height) 0
    row_width := width
    width := width
    height := height }

/-- src/image.rs, `Image::read`.  The source does not bounds-check; an
out-of-range access panics, modelled by `none`. -/
def Image.read (img : Image) (x y : Nat) : Option RGBA :=
  let i := RGBA_BYTES * (img.row_width * y + x)
  match img.data[i]?, img.data[i+1]?, img.data[i+2]?, img.data[i+3]? with
  | some r, some g, some b, some a => some (RGBA.mk r g b a)
  | _, _, _, _ => none

/-- src/image.rs, `Image::write`.  The source does not bounds-check; an
out-of-range store panics, modelled by `none`. -/
def Image.write (img : Image) (x y : Nat) (pixel : RGBA) : Option Image :=
  let i := RGBA_BYTES * (img.row_width * y + x)
  if i + 4 ≤ img.data.length then
    some { img with
      data := (((img.data.set i pixel.r).set (i+1) pixel.g).set (i+2) pixel.b).set (i+3) pixel.a }
  else none

/-- src/image.rs, `ImageIterator::next` run to exhaustion from index 0:
yield a pixel from each full group of 4 remaining bytes (r, g, b, a),
stopping as soon as fewer than 4 bytes remain. -/
def bytesToPixels : List Nat → List RGBA
  | r :: g :: b :: a :: rest => RGBA.mk r g b a :: bytesToPixels rest
  | _ => []

/-- src/bmp.rs, `enum BMPError`. -/
inductive BMPError where
  | InvalidFormat (msg : String)
  | UnsupportedFormat (msg : String)
deriving DecidableEq, Repr

instance {e a : Type} [DecidableEq e] [DecidableEq a] : DecidableEq (Except e a) := fun u v =>
  match u, v with
  | Except.ok s, Except.ok t =>
    if h : s = t then Decidable.isTrue (by rw [h])
    else Decidable.isFalse (by intro hc; cases hc; exact h rfl)
  | Except.error s, Except.error t =>
    if h : s = t then Decidable.isTrue (by rw [h])
    else Decidable.isFalse (by intro hc; cases hc; exact h rfl)
  | Except.ok _, Except.error _ => Decidable.isFalse (by intro hc; cases hc)
  | Except.error _, Except.ok _ => Decidable.isFalse (by intro hc; cases hc)

/-- Read the byte at index `i` (the default 0 is never exposed: every use in
the parsers is guarded by a length check, as in the source). -/
def byte (data : List Nat) (i : Nat) : Nat := data.getD i 0

/-- src/bmp.rs, `u32_le`: little-endian u32 from the first 4 bytes. -/
def u32_le (data : List Nat) : Nat :=
  byte data 0 + byte data 1 * 256 + byte data 2 * 65536 + byte data 3 * 16777216

/-- src/bmp.rs, `u16_le`. -/
def u16_le (data : List Nat) : Nat := byte data 0 + byte data 1 * 256

/-- Reinterpret a u32 value as a signed i32 (two-complement), as the cast
`as i32` does in the source. -/
def toI32 (n : Nat) : Int :=
  if n % 4294967296 < 2147483648 then ((n % 4294967296 : Nat) : Int)
  else ((n % 4294967296 : Nat) : Int) - 4294967296

/-- src/bmp.rs, `i32_le`: little-endian i32 from the first 4 bytes. -/
def i32_le (data : List Nat) : Int := toI32 (u32_le data)

/-- src/bmp.rs, `struct FileHeader`. -/
structure FileHeader where
  size : Nat
  offset : Nat
deriving DecidableEq, Repr

/-- src/bmp.rs, `enum CompressionType`. -/
inductive CompressionType where
  | Uncompressed
  | RLE4
  | RLE8
  | Bitfields
  | Unknown
deriving DecidableEq, Repr

/-- src/bmp.rs, `impl From<CompressionType> for u32`. -/
def CompressionType.toU32 : CompressionType → Nat
  | .Uncompressed => 0
  | .RLE8 => 1
  | .RLE4 => 2
  | .Bitfields => 3
  | .Unknown => 69

/-- src/bmp.rs, `impl From<u32> for CompressionType`. -/
def CompressionType.ofU32 (num : Nat) : CompressionType :=
  match num with
  | 0 => .Uncompressed
  | 1 => .RLE8
  | 2 => .RLE4
  | 3 => .Bitfields
  | _ => .Unknown

/-- src/bmp.rs, `struct ImageHeader`. -/
structure ImageHeader where
  size : Nat
  width : Nat
  height : Int
  bit_count : Nat
  compression : CompressionType
  image_bytes : Nat
  x_pixels_per_meter : Nat
  y_pixels_per_meter : Nat
  color_used : Nat
  color_important : Nat
deriving DecidableEq, Repr

/-- src/bmp.rs, `struct ColorMasks`. -/
structure ColorMasks where
  r : Nat
  g : Nat
  b : Nat
  a : Nat
deriving DecidableEq, Repr

/-- src/bmp.rs, `enum ColorFormat`. -/
inductive ColorFormat where
  | RGBA
deriving DecidableEq, Repr

/-- src/bmp.rs, `impl From<ColorFormat> for ColorMasks`. -/
def ColorFormat.masks : ColorFormat → ColorMasks
  | .RGBA => ColorMasks.mk 0xFF000000 0x00FF0000 0x0000FF00 0x000000FF

/-- src/bmp.rs, `impl TryFrom<ColorMasks> for ColorFormat`: the loop over
the one-element array `[ColorFormat::RGBA]` is an equality test against its
masks. -/
def ColorFormat.tryFromMasks (mask : ColorMasks) : Except BMPError ColorFormat :=
  if mask = ColorFormat.RGBA.masks then Except.ok ColorFormat.RGBA
  else Except.error (BMPError.UnsupportedFormat ("Unknown color format"))

/-- src/bmp.rs, `struct Header`. -/
structure Header where
  file_header : FileHeader
  image_header : ImageHeader
  format : ColorFormat
deriving DecidableEq, Repr

/-- src/bmp.rs, `parse_file_header`. -/
def parse_file_header (data : List Nat) : Except BMPError FileHeader :=
  if data.length < 14 then
    Except.error (BMPError.InvalidFormat ("insufficient file header length"))
  else if byte data 0 ≠ 66 ∨ byte data 1 ≠ 77 then
    Except.error (BMPError.InvalidFormat ("header did not start with BM"))
  else
    let size := u32_le (data.drop 2)
    if byte data 6 ≠ 0 ∨ byte data 7 ≠ 0 ∨ byte data 8 ≠ 0 ∨ byte data 9 ≠ 0 then
      Except.error (BMPError.InvalidFormat ("reserved bytes not 0"))
    else
      let offset := u32_le (data.drop 10)
      Except.ok (FileHeader.mk size offset)

/-- src/bmp.rs, `parse_image_header` (parsing from the start of the given
slice, i.e. from byte 14 of the whole file). -/
def parse_image_header (data : List Nat) : Except BMPError ImageHeader :=
  if data.length < 40 then
    Except.error (BMPError.InvalidFormat ("insufficient image header length"))
  else
    let size := u32_le data
    let width := u32_le (data.drop 4)
    let height := toI32 (u32_le (data.drop 8))
    if byte data 12 ≠ 1 ∨ byte data 13 ≠ 0 then
      Except.error (BMPError.InvalidFormat ("plane count not 1"))
    else
      let bit_count := u16_le (data.drop 14)
      let compression := CompressionType.ofU32 (u32_le (data.drop 16))
      let image_bytes := u32_le (data.drop 20)
      let x_pixels_per_meter := u32_le (data.drop 24)
      let y_pixels_per_meter := u32_le (data.drop 28)
      let color_used := u32_le (data.drop 32)
      let color_important := u32_le (data.drop 36)
      Except.ok (ImageHeader.mk size width height bit_count compression image_bytes
        x_pixels_per_meter y_pixels_per_meter color_used color_important)

/-- src/bmp.rs, `parse_color_format`. -/
def parse_color_format (data : List Nat) : Except BMPError ColorFormat :=
  if data.length < 16 then
    Except.error (BMPError.InvalidFormat ("insufficient color mask length"))
  else
    let r := u32_le data
    let g := u32_le (data.drop 4)
    let b := u32_le (data.drop 8)
    let a := u32_le (data.drop 12)
    ColorFormat.tryFromMasks (ColorMasks.mk r g b a)

/-- src/bmp.rs, `parse_header`. -/
def parse_header (data : List Nat) : Except BMPError Header :=
  match parse_file_header data with
  | Except.error e => Except.error e
  | Except.ok file_header =>
    if data.length < file_header.offset then
      Except.error (BMPError.InvalidFormat ("insufficient header length"))
    else
      match parse_image_header (data.drop 14) with
      | Except.error e => Except.error e
      | Except.ok image_header =>
        if image_header.compression ≠ CompressionType.Bitfields then
          Except.error (BMPError.UnsupportedFormat ("compression type not supported"))
        else if image_header.bit_count ≠ 32 then
          Except.error (BMPError.UnsupportedFormat ("unspported pixel format"))
        else
          match parse_color_format (data.drop 54) with
          | Except.error e => Except.error e
          | Except.ok format => Except.ok (Header.mk file_header image_header format)

/-- Outcome of a decode: a value, a returned `BMPError`, or a Rust panic
(out-of-bounds index), which the source does not catch. -/
inductive POutcome (α : Type) where
  | ok (a : α)
  | err (e : BMPError)
  | crash
deriving DecidableEq, Repr

/-- The pixel-reading `while` loop of src/bmp.rs `parse_image`.  `i` is the
byte cursor into `img_data`, `ib` the declared `image_bytes`; `x`, `y` the
current pixel position.  Each iteration consumes 4 bytes and advances the
cursor, so `fuel` (instantiated with `ib` by `parse_image`) strictly bounds
the iteration count; the `fuel = 0, i < ib` branch is unreachable from that
entry point.  Out-of-range reads of `img_data` and the out-of-range store
inside `Image.write` are panics in the source, modelled by `crash`. -/
def decodeLoop : Nat → List Nat → Nat → Nat → Nat → Nat → Image → POutcome Image
  | 0, _, ib, i, _, _, img =>
    if i < ib then POutcome.crash else POutcome.ok img
  | fuel+1, img_data, ib, i, x, y, img =>
    if i < ib then
      if i + 4 ≤ img_data.length then
        match Image.write img x y
          (RGBA.mk (byte img_data i) (byte img_data (i+1))
            (byte img_data (i+2)) (byte img_data (i+3))) with
        | some img2 =>
          if x + 1 ≥ img2.width then decodeLoop fuel img_data ib (i+4) 0 (y+1) img2
          else decodeLoop fuel img_data ib (i+4) (x+1) y img2
        | none => POutcome.crash
      else POutcome.crash
    else POutcome.ok img

/-- src/bmp.rs, `parse_image`. -/
def parse_image (data : List Nat) : POutcome Image :=
  match parse_header data with
  | Except.error e => POutcome.err e
  | Except.ok header =>
    if data.length < header.file_header.size then
      POutcome.err (BMPError.InvalidFormat ("insufficient image data"))
    else
      let height := header.image_header.height.natAbs
      let image_data := data.drop header.file_header.offset
      let image := Image.new header.image_header.width height
      decodeLoop header.image_header.image_bytes image_data
        header.image_header.image_bytes 0 0 0 image

/-- src/bmp.rs, `write_u32_le`: the 4 little-endian bytes of a u32 value
(each `as u8` cast keeps the low 8 bits of the shifted value). -/
def u32_bytes (n : Nat) : List Nat :=
  [n % 256, n / 256 % 256, n / 65536 % 256, n / 16777216 % 256]

/-- src/bmp.rs, `write_u16_le`. -/
def u16_bytes (n : Nat) : List Nat := [n % 256, n / 256 % 256]

/-- src/bmp.rs, `write_i32_le`: the bytes of the two-complement u32
representation of an i32 value. -/
def i32_bytes (num : Int) : List Nat := u32_bytes (num % 4294967296).toNat

/-- Wrapping of an unbounded integer into i32 (two-complement), used to model
the release-mode `i32` arithmetic of the encoder. -/
def wrapI32 (x : Int) : Int :=
  if x % 4294967296 < 2147483648 then x % 4294967296
  else x % 4294967296 - 4294967296

/-- src/bmp.rs, `write_file_header`, writing to an in-memory sink. -/
def write_file_header (header : FileHeader) : List Nat :=
  [66, 77] ++ u32_bytes header.size ++ [0, 0, 0, 0] ++ u32_bytes header.offset

/-- src/bmp.rs, `write_image_header`, writing to an in-memory sink.  The
height is an i32 field written with `write_i32_le`. -/
def write_image_header (header : ImageHeader) : List Nat :=
  u32_bytes header.size ++ u32_bytes header.width ++ i32_bytes header.height ++
  [1, 0] ++ u16_bytes header.bit_count ++ u32_bytes header.compression.toU32 ++
  u32_bytes header.image_bytes ++ u32_bytes header.x_pixels_per_meter ++
  u32_bytes header.y_pixels_per_meter ++ u32_bytes header.color_used ++
  u32_bytes header.color_important

/-- src/bmp.rs, `write_format`. -/
def write_format (format : ColorFormat) : List Nat :=
  u32_bytes format.masks.r ++ u32_bytes format.masks.g ++ u32_bytes format.masks.b ++
  u32_bytes format.masks.a ++ u32_bytes 0x57696E20 ++ List.replicate 48 0

/-- The pixel stream of src/bmp.rs `write_image`: the `for pixel in image`
loop iterates the image pixels (`bytesToPixels`) and writes the channel
bytes in the order alpha, blue, green, red for each. -/
def payload (data : List Nat) : List Nat :=
  List.flatMap (bytesToPixels data) (fun pixel => [pixel.a, pixel.b, pixel.g, pixel.r])

/-- src/bmp.rs, `write_image`, writing to an in-memory sink.  `u32`
multiplication and addition wrap modulo `2^32` (release semantics); the
height field is `-(image.height as i32)` computed in i32 arithmetic. -/
def write_image (image : Image) : List Nat :=
  let pixel_count := image.width * image.height % 4294967296
  let file_header := FileHeader.mk ((122 + RGBA_BYTES * pixel_count % 4294967296) % 4294967296) 122
  let image_header := ImageHeader.mk 108 image.width (wrapI32 (-(toI32 image.height)))
    32 CompressionType.Bitfields (image.width * image.height % 4294967296 * 4 % 4294967296)
    2835 2835 0 0
  write_file_header file_header ++ write_image_header image_header ++
  write_format ColorFormat.RGBA ++ payload image.data

/-! ## Concrete inputs used by the claim theorems

`bmpHeaderBytes` builds the 122-byte header region of a BMP file in the
layout the codec reads: file header (14 bytes), image header (40 bytes,
with the given header-size, width, height, bit count, compression code and
image-byte count, planes = 1, remaining fields 0), the RGBA mask block, and
52 padding bytes up to offset 122. -/

def bmpHeaderBytes (size offset hsize width : Nat) (height : Int)
    (bitc comp ib : Nat) : List Nat :=
  [66, 77] ++ u32_bytes size ++ [0, 0, 0, 0] ++ u32_bytes offset ++
  u32_bytes hsize ++ u32_bytes width ++ i32_bytes height ++ [1, 0] ++ u16_bytes bitc ++
  u32_bytes comp ++ u32_bytes ib ++ u32_bytes 0 ++ u32_bytes 0 ++ u32_bytes 0 ++ u32_bytes 0 ++
  u32_bytes 0xFF000000 ++ u32_bytes 0x00FF0000 ++ u32_bytes 0x0000FF00 ++ u32_bytes 0x000000FF ++
  List.replicate 52 0

/-- A well-formed 126-byte file: 1 by 1 image, 4 pixel bytes. -/
def goodInput : List Nat := bmpHeaderBytes 126 122 40 1 (-1) 32 3 4 ++ [9, 8, 7, 6]

def goodHeader : Header :=
  Header.mk (FileHeader.mk 126 122)
    (ImageHeader.mk 40 1 (-1) 32 CompressionType.Bitfields 4 0 0 0 0) ColorFormat.RGBA

def goodImage : Image := Image.mk [9, 8, 7, 6] 1 1 1

/-- 130-byte file whose headers validate but whose `image_bytes` (8) exceeds
the pixel buffer (4 bytes for a 1 by 1 image). -/
def c1_input : List Nat := bmpHeaderBytes 130 122 40 1 (-1) 32 3 8 ++ List.replicate 8 7

def c1_header : Header :=
  Header.mk (FileHeader.mk 130 122)
    (ImageHeader.mk 40 1 (-1) 32 CompressionType.Bitfields 8 0 0 0 0) ColorFormat.RGBA

/-- 126-byte file with width 0, height 1 and `image_bytes` 4. -/
def c2_input : List Nat := bmpHeaderBytes 126 122 40 0 1 32 3 4 ++ [9, 8, 7, 6]

def c2_header : Header :=
  Header.mk (FileHeader.mk 126 122)
    (ImageHeader.mk 40 0 1 32 CompressionType.Bitfields 4 0 0 0 0) ColorFormat.RGBA

/-- 122-byte file with width 0, height 0 and `image_bytes` 0. -/
def c2e_input : List Nat := bmpHeaderBytes 122 122 40 0 0 32 3 0

/-- 126-byte file whose declared size field is 0 while the offset is 122. -/
def c3_input : List Nat := bmpHeaderBytes 0 122 40 1 (-1) 32 3 4 ++ [9, 8, 7, 6]

def c3_header : Header :=
  Header.mk (FileHeader.mk 0 122)
    (ImageHeader.mk 40 1 (-1) 32 CompressionType.Bitfields 4 0 0 0 0) ColorFormat.RGBA

/-- 126-byte file whose header-size field is 12345. -/
def c4_input : List Nat := bmpHeaderBytes 126 122 12345 1 (-1) 32 3 4 ++ [9, 8, 7, 6]

def c4_header : Header :=
  Header.mk (FileHeader.mk 126 122)
    (ImageHeader.mk 12345 1 (-1) 32 CompressionType.Bitfields 4 0 0 0 0) ColorFormat.RGBA

/-- Structurally valid file declaring 24 bits per pixel. -/
def c5a_input : List Nat := bmpHeaderBytes 126 122 40 1 (-1) 24 3 4 ++ [9, 8, 7, 6]

/-- Structurally valid file declaring compression code 0 (Uncompressed). -/
def c5b_input : List Nat := bmpHeaderBytes 126 122 40 1 (-1) 32 0 4 ++ [9, 8, 7, 6]

/-- Structurally valid file declaring compression code 7 (an Unknown code). -/
def c5c_input : List Nat := bmpHeaderBytes 126 122 40 1 (-1) 32 7 4 ++ [9, 8, 7, 6]

/-- 14 zero bytes: long enough for the length check, wrong signature. -/
def c6_input : List Nat := List.replicate 14 0

/-- The RGBA mask block. -/
def rgbaMaskBytes : List Nat :=
  u32_bytes 0xFF000000 ++ u32_bytes 0x00FF0000 ++ u32_bytes 0x0000FF00 ++ u32_bytes 0x000000FF

/-- The RGBA mask block with the r and g masks swapped. -/
def swappedMaskBytes : List Nat :=
  u32_bytes 0x00FF0000 ++ u32_bytes 0xFF000000 ++ u32_bytes 0x0000FF00 ++ u32_bytes 0x000000FF

/-- A 2 by 2 image with every pixel set to (r=255, g=0, b=0, a=255). -/
def c9_image : Image :=
  Image.mk [255, 0, 0, 255, 255, 0, 0, 255, 255, 0, 0, 255, 255, 0, 0, 255] 2 2 2

/-! ## Helper lemmas about the pixel buffer and the decode loop -/

theorem byte_getElem {l : List Nat} {j : Nat} (h : j < l.length) :
    l[j]? = some (byte l j) := by
  simp [byte, List.getD_eq_getElem?_getD, List.getElem?_eq_getElem h]

theorem byte_drop (l : List Nat) (n j : Nat) : byte (l.drop n) j = byte l (n + j) := by
  simp [byte, List.getD_eq_getElem?_getD, List.getElem?_drop]

/-- `Image.write` succeeds exactly on the stores the source performs without
panicking; the updated image has the four channel bytes at the linear pixel
index and is unchanged elsewhere. -/
theorem Image.write_spec (img : Image) (x y i : Nat) (pixel : RGBA)
    (hpos : i = 4 * (img.row_width * y + x))
    (h : i + 4 ≤ img.data.length) :
    ∃ img2, img.write x y pixel = some img2 ∧
      img2.width = img.width ∧ img2.height = img.height ∧
      img2.row_width = img.row_width ∧ img2.data.length = img.data.length ∧
      ∀ j, img2.data[j]? =
        if j = i then some pixel.r
        else if j = i + 1 then some pixel.g
        else if j = i + 2 then some pixel.b
        else if j = i + 3 then some pixel.a
        else img.data[j]? := by
  subst hpos
  refine ⟨Image.mk ((((img.data.set (4 * (img.row_width * y + x)) pixel.r).set
      (4 * (img.row_width * y + x) + 1) pixel.g).set
      (4 * (img.row_width * y + x) + 2) pixel.b).set
      (4 * (img.row_width * y + x) + 3) pixel.a) img.row_width img.width img.height,
    ?_, rfl, rfl, rfl, by simp, ?_⟩
  · simp [Image.write, RGBA_BYTES, h]
  · intro j
    simp only [List.getElem?_set, List.length_set]
    split_ifs <;> first | rfl | omega

/-- If the declared byte count is a multiple of 4, fits in the remaining
input bytes and in the pixel buffer, the decode loop terminates normally
(no out-of-range access). -/
theorem decodeLoop_safe (fuel : Nat) :
    ∀ (img_data : List Nat) (ib i x y : Nat) (img : Image),
      img.row_width = img.width →
      img.data.length = 4 * img.width * img.height →
      i = 4 * (img.width * y + x) →
      (0 < img.width → x < img.width) →
      ib % 4 = 0 →
      ib ≤ img_data.length →
      ib ≤ img.data.length →
      ib ≤ 4 * fuel + i →
      ∃ img2, decodeLoop fuel img_data ib i x y img = POutcome.ok img2 := by
  induction fuel with
  | zero =>
    intro img_data ib i x y img _ _ _ _ _ _ _ hfuel
    refine ⟨img, ?_⟩
    simp only [decodeLoop]
    rw [if_neg (by omega)]
  | succ fuel ih =>
    intro img_data ib i x y img hrw hlen hi hx hib4 hibd hibl hfuel
    by_cases hlt : i < ib
    · have hstep : i + 4 ≤ ib := by omega
      have hw0 : 0 < img.width := by
        by_contra hc
        have h0 : img.width = 0 := by omega
        rw [h0] at hlen
        simp only [Nat.mul_zero, Nat.zero_mul] at hlen
        omega
      obtain ⟨img2, hw, hW, hH, hRW, hL, hchar⟩ :=
        Image.write_spec img x y i
          (RGBA.mk (byte img_data i) (byte img_data (i+1))
            (byte img_data (i+2)) (byte img_data (i+3)))
          (by rw [hrw]; exact hi) (by omega)
      simp only [decodeLoop]
      rw [if_pos hlt, if_pos (by omega : i + 4 ≤ img_data.length), hw]
      show ∃ img3,
        (if x + 1 ≥ img2.width then decodeLoop fuel img_data ib (i+4) 0 (y+1) img2
         else decodeLoop fuel img_data ib (i+4) (x+1) y img2) = POutcome.ok img3
      by_cases hxw : x + 1 ≥ img2.width
      · rw [if_pos hxw]
        have hx1 : x + 1 = img.width := by
          rw [hW] at hxw
          omega
        refine ih img_data ib (i+4) 0 (y+1) img2 ?_ ?_ ?_ ?_ hib4 hibd ?_ ?_
        · rw [hRW, hW, hrw]
        · rw [hL, hW, hH, hlen]
        · rw [hW]
          have hms : img.width * (y + 1) + 0 = img.width * y + x + 1 := by
            rw [Nat.mul_succ]
            omega
          rw [hms]
          omega
        · intro h
          omega
        · rw [hL]
          exact hibl
        · omega
      · rw [if_neg hxw]
        rw [hW] at hxw
        refine ih img_data ib (i+4) (x+1) y img2 ?_ ?_ ?_ ?_ hib4 hibd ?_ ?_
        · rw [hRW, hW, hrw]
        · rw [hL, hW, hH, hlen]
        · rw [hW]
          omega
        · intro _
          rw [hW]
          omega
        · rw [hL]
          exact hibl
        · omega
    · refine ⟨img, ?_⟩
      simp only [decodeLoop]
      rw [if_neg hlt]

/-- Characterization of a decode loop run that returned normally: the image
fields are preserved, buffer bytes in `[i, ib)` hold the corresponding input
bytes, all other buffer bytes are untouched, and every index in `[i, ib)`
was in range of both the input slice and the buffer. -/
theorem decodeLoop_char (fuel : Nat) :
    ∀ (img_data : List Nat) (ib i x y : Nat) (img img2 : Image),
      decodeLoop fuel img_data ib i x y img = POutcome.ok img2 →
      img.row_width = img.width →
      img.data.length = 4 * img.width * img.height →
      i = 4 * (img.width * y + x) →
      (0 < img.width → x < img.width) →
      ib % 4 = 0 →
      img2.width = img.width ∧ img2.height = img.height ∧
      img2.row_width = img.row_width ∧ img2.data.length = img.data.length ∧
      (img.width = 0 → ib ≤ i) ∧
      (∀ j, i ≤ j → j < ib →
        img2.data[j]? = img_data[j]? ∧ j < img_data.length ∧ j < img.data.length) ∧
      (∀ j, j < i ∨ ib ≤ j → img2.data[j]? = img.data[j]?) := by
  induction fuel with
  | zero =>
    intro img_data ib i x y img img2 hok _ _ _ _ _
    simp only [decodeLoop] at hok
    by_cases hlt : i < ib
    · rw [if_pos hlt] at hok
      cases hok
    · rw [if_neg hlt] at hok
      cases hok
      exact ⟨rfl, rfl, rfl, rfl, fun _ => by omega,
        fun j hj1 hj2 => (by omega : False).elim, fun j _ => rfl⟩
  | succ fuel ih =>
    intro img_data ib i x y img img2 hok hrw hlen hi hx hib4
    simp only [decodeLoop] at hok
    by_cases hlt : i < ib
    · rw [if_pos hlt] at hok
      by_cases hrd : i + 4 ≤ img_data.length
      · rw [if_pos hrd] at hok
        by_cases hwc : i + 4 ≤ img.data.length
        · obtain ⟨img2m, hwm, hW, hH, hRW, hL, hchar⟩ :=
            Image.write_spec img x y i
              (RGBA.mk (byte img_data i) (byte img_data (i+1))
                (byte img_data (i+2)) (byte img_data (i+3)))
              (by rw [hrw]; exact hi) hwc
          rw [hwm] at hok
          replace hok :
              (if x + 1 ≥ img2m.width then decodeLoop fuel img_data ib (i+4) 0 (y+1) img2m
               else decodeLoop fuel img_data ib (i+4) (x+1) y img2m) = POutcome.ok img2 := hok
          have hw0 : 0 < img.width := by
            by_contra hc
            have h0 : img.width = 0 := by omega
            rw [h0] at hlen
            simp only [Nat.mul_zero, Nat.zero_mul] at hlen
            omega
          have hxlt : x < img.width := hx hw0
          have hstep : i + 4 ≤ ib := by omega
          by_cases hxw : x + 1 ≥ img2m.width
          · rw [if_pos hxw] at hok
            rw [hW] at hxw
            have hx1 : x + 1 = img.width := by omega
            have hms : img.width * (y + 1) + 0 = img.width * y + x + 1 := by
              rw [Nat.mul_succ]
              omega
            obtain ⟨cW, cH, cRW, cL, cZ, cIn, cOut⟩ :=
              ih img_data ib (i+4) 0 (y+1) img2m img2 hok
                (by rw [hRW, hW, hrw])
                (by rw [hL, hW, hH, hlen])
                (by rw [hW, hms]; omega)
                (fun h2 => h2)
                hib4
            refine ⟨by rw [cW, hW], by rw [cH, hH], by rw [cRW, hRW], by rw [cL, hL],
              fun h0 => by omega, ?_, ?_⟩
            · intro j hj1 hj2
              by_cases hj4 : i + 4 ≤ j
              · obtain ⟨e1, e2, e3⟩ := cIn j hj4 hj2
                exact ⟨e1, e2, by rw [← hL]; exact e3⟩
              · have hbj : j < img_data.length := by omega
                refine ⟨?_, hbj, by omega⟩
                rw [cOut j (Or.inl (by omega)), hchar j]
                have hj04 : j = i ∨ j = i + 1 ∨ j = i + 2 ∨ j = i + 3 := by omega
                rcases hj04 with h | h | h | h
                · rw [h, if_pos rfl, byte_getElem (by omega : i < img_data.length)]
                · rw [h, if_neg (by omega), if_pos rfl,
                    byte_getElem (by omega : i + 1 < img_data.length)]
                · rw [h, if_neg (by omega), if_neg (by omega), if_pos rfl,
                    byte_getElem (by omega : i + 2 < img_data.length)]
                · rw [h, if_neg (by omega), if_neg (by omega), if_neg (by omega), if_pos rfl,
                    byte_getElem (by omega : i + 3 < img_data.length)]
            · intro j hj
              rcases hj with hj | hj
              · rw [cOut j (Or.inl (by omega)), hchar j, if_neg (by omega), if_neg (by omega),
                  if_neg (by omega), if_neg (by omega)]
              · rw [cOut j (Or.inr hj), hchar j, if_neg (by omega), if_neg (by omega),
                  if_neg (by omega), if_neg (by omega)]
          · rw [if_neg hxw] at hok
            rw [hW] at hxw
            obtain ⟨cW, cH, cRW, cL, cZ, cIn, cOut⟩ :=
              ih img_data ib (i+4) (x+1) y img2m img2 hok
                (by rw [hRW, hW, hrw])
                (by rw [hL, hW, hH, hlen])
                (by rw [hW]; omega)
                (by intro h2; rw [hW]; omega)
                hib4
            refine ⟨by rw [cW, hW], by rw [cH, hH], by rw [cRW, hRW], by rw [cL, hL],
              fun h0 => by omega, ?_, ?_⟩
            · intro j hj1 hj2
              by_cases hj4 : i + 4 ≤ j
              · obtain ⟨e1, e2, e3⟩ := cIn j hj4 hj2
                exact ⟨e1, e2, by rw [← hL]; exact e3⟩
              · have hbj : j < img_data.length := by omega
                refine ⟨?_, hbj, by omega⟩
                rw [cOut j (Or.inl (by omega)), hchar j]
                have hj04 : j = i ∨ j = i + 1 ∨ j = i + 2 ∨ j = i + 3 := by omega
                rcases hj04 with h | h | h | h
                · rw [h, if_pos rfl, byte_getElem (by omega : i < img_data.length)]
                · rw [h, if_neg (by omega), if_pos rfl,
                    byte_getElem (by omega : i + 1 < img_data.length)]
                · rw [h, if_neg (by omega), if_neg (by omega), if_pos rfl,
                    byte_getElem (by omega : i + 2 < img_data.length)]
                · rw [h, if_neg (by omega), if_neg (by omega), if_neg (by omega), if_pos rfl,
                    byte_getElem (by omega : i + 3 < img_data.length)]
            · intro j hj
              rcases hj with hj | hj
              · rw [cOut j (Or.inl (by omega)), hchar j, if_neg (by omega), if_neg (by omega),
                  if_neg (by omega), if_neg (by omega)]
              · rw [cOut j (Or.inr hj), hchar j, if_neg (by omega), if_neg (by omega),
                  if_neg (by omega), if_neg (by omega)]
        · have hnone : Image.write img x y
              (RGBA.mk (byte img_data i) (byte img_data (i+1))
                (byte img_data (i+2)) (byte img_data (i+3))) = none := by
            simp only [Image.write, RGBA_BYTES]
            rw [hrw, ← hi, if_neg hwc]
          rw [hnone] at hok
          cases hok
      · rw [if_neg hrd] at hok
        cases hok
    · rw [if_neg hlt] at hok
      cases hok
      exact ⟨rfl, rfl, rfl, rfl, fun _ => by omega,
        fun j hj1 hj2 => (by omega : False).elim, fun j _ => rfl⟩

/-! ## Inversion and characterization lemmas for the header parsers -/

theorem parse_file_header_inv (data : List Nat) (fh : FileHeader)
    (hp : parse_file_header data = Except.ok fh) :
    14 ≤ data.length ∧ byte data 0 = 66 ∧ byte data 1 = 77 ∧
    byte data 6 = 0 ∧ byte data 7 = 0 ∧ byte data 8 = 0 ∧ byte data 9 = 0 ∧
    fh = FileHeader.mk (u32_le (data.drop 2)) (u32_le (data.drop 10)) := by
  unfold parse_file_header at hp
  split_ifs at hp with h1 h2 h3
  cases hp
  push_neg at h1 h2 h3
  exact ⟨by omega, h2.1, h2.2, h3.1, h3.2.1, h3.2.2.1, h3.2.2.2, rfl⟩

theorem parse_file_header_eq (data : List Nat)
    (h1 : ¬ data.length < 14) (h2 : byte data 0 = 66) (h3 : byte data 1 = 77)
    (h4 : byte data 6 = 0) (h5 : byte data 7 = 0) (h6 : byte data 8 = 0)
    (h7 : byte data 9 = 0) :
    parse_file_header data =
      Except.ok (FileHeader.mk (u32_le (data.drop 2)) (u32_le (data.drop 10))) := by
  unfold parse_file_header
  rw [if_neg h1, if_neg (by simp [h2, h3]), if_neg (by simp [h4, h5, h6, h7])]

theorem parse_image_header_inv (data : List Nat) (ih : ImageHeader)
    (hp : parse_image_header data = Except.ok ih) :
    40 ≤ data.length ∧ byte data 12 = 1 ∧ byte data 13 = 0 ∧
    ih = ImageHeader.mk (u32_le data) (u32_le (data.drop 4)) (toI32 (u32_le (data.drop 8)))
      (u16_le (data.drop 14)) (CompressionType.ofU32 (u32_le (data.drop 16)))
      (u32_le (data.drop 20)) (u32_le (data.drop 24)) (u32_le (data.drop 28))
      (u32_le (data.drop 32)) (u32_le (data.drop 36)) := by
  unfold parse_image_header at hp
  split_ifs at hp with h1 h2
  cases hp
  push_neg at h1 h2
  exact ⟨by omega, h2.1, h2.2, rfl⟩

theorem parse_image_header_eq (data : List Nat)
    (h1 : ¬ data.length < 40) (h2 : byte data 12 = 1) (h3 : byte data 13 = 0) :
    parse_image_header data =
      Except.ok (ImageHeader.mk (u32_le data) (u32_le (data.drop 4))
        (toI32 (u32_le (data.drop 8))) (u16_le (data.drop 14))
        (CompressionType.ofU32 (u32_le (data.drop 16))) (u32_le (data.drop 20))
        (u32_le (data.drop 24)) (u32_le (data.drop 28)) (u32_le (data.drop 32))
        (u32_le (data.drop 36))) := by
  unfold parse_image_header
  rw [if_neg h1, if_neg (by simp [h2, h3])]

theorem parse_header_inv (data : List Nat) (h : Header)
    (hp : parse_header data = Except.ok h) :
    parse_file_header data = Except.ok h.file_header ∧
    ¬ data.length < h.file_header.offset ∧
    parse_image_header (data.drop 14) = Except.ok h.image_header ∧
    h.image_header.compression = CompressionType.Bitfields ∧
    h.image_header.bit_count = 32 ∧
    parse_color_format (data.drop 54) = Except.ok h.format := by
  unfold parse_header at hp
  split at hp
  · exact (Except.noConfusion hp)
  case _ fh hfh =>
    by_cases hoff : data.length < fh.offset
    · rw [if_pos hoff] at hp
      exact (Except.noConfusion hp)
    · rw [if_neg hoff] at hp
      split at hp
      · exact (Except.noConfusion hp)
      case _ ihd hihd =>
        by_cases hcomp : ihd.compression ≠ CompressionType.Bitfields
        · rw [if_pos hcomp] at hp
          exact (Except.noConfusion hp)
        · rw [if_neg hcomp] at hp
          by_cases hbc : ihd.bit_count ≠ 32
          · rw [if_pos hbc] at hp
            exact (Except.noConfusion hp)
          · rw [if_neg hbc] at hp
            split at hp
            · exact (Except.noConfusion hp)
            case _ fmt hfmt =>
              cases hp
              push_neg at hcomp hbc
              exact ⟨hfh, hoff, hihd, hcomp, hbc, hfmt⟩

theorem parse_color_format_eq (data : List Nat) (h1 : ¬ data.length < 16) :
    parse_color_format data = ColorFormat.tryFromMasks
      (ColorMasks.mk (u32_le data) (u32_le (data.drop 4)) (u32_le (data.drop 8))
        (u32_le (data.drop 12))) := by
  unfold parse_color_format
  rw [if_neg h1]

theorem parse_header_eq (data : List Nat) (fh : FileHeader) (ihd : ImageHeader)
    (fmt : ColorFormat)
    (h1 : parse_file_header data = Except.ok fh)
    (h2 : ¬ data.length < fh.offset)
    (h3 : parse_image_header (data.drop 14) = Except.ok ihd)
    (h4 : ihd.compression = CompressionType.Bitfields)
    (h5 : ihd.bit_count = 32)
    (h6 : parse_color_format (data.drop 54) = Except.ok fmt) :
    parse_header data = Except.ok (Header.mk fh ihd fmt) := by
  simp only [parse_header, h1, h3, h6]
  rw [if_neg h2, if_neg (by simp [h4]), if_neg (by simp [h5])]

/-! ## Claim theorems -/

/-- Claim C1, counterexample: the 130-byte input `c1_input` passes every
header check (`parse_header` succeeds), yet `parse_image` performs an
out-of-range store (a Rust panic, `crash`): its `image_bytes` field is 8
while the 1 by 1 pixel buffer holds only 4 bytes, and the loop has no
per-pixel bounds check.  This refutes the claim that the decode never
crashes on inputs that pass the header checks. -/
theorem c1_counterexample :
    parse_header c1_input = Except.ok c1_header ∧
    parse_image c1_input = POutcome.crash := by decide

/-- Claim C1 (amended): `parse_image` returns a typed result and performs no
out-of-range indexing provided the declared `image_bytes` is a multiple of 4,
is at most the number of bytes after the pixel-data offset, and is at most
the size in bytes of the allocated `width * |height|` pixel buffer.  Without
these extra bounds the loop can index past the byte slice or the buffer
(see the counterexample). -/
theorem c1_parse_image_no_oob (data : List Nat) (fh : FileHeader) (ihd : ImageHeader)
    (fmt : ColorFormat)
    (hph : parse_header data = Except.ok (Header.mk fh ihd fmt))
    (hsz : ¬ data.length < fh.size)
    (h4 : ihd.image_bytes % 4 = 0)
    (hrem : ihd.image_bytes ≤ data.length - fh.offset)
    (hbuf : ihd.image_bytes ≤ 4 * ihd.width * ihd.height.natAbs) :
    ∃ img, parse_image data = POutcome.ok img := by
  obtain ⟨img, himg⟩ := decodeLoop_safe ihd.image_bytes (data.drop fh.offset)
    ihd.image_bytes 0 0 0 (Image.new ihd.width ihd.height.natAbs)
    rfl (by simp [Image.new, RGBA_BYTES]) (by simp) (fun h => h) h4
    (by rw [List.length_drop]; exact hrem)
    (by simpa [Image.new, RGBA_BYTES] using hbuf)
    (by omega)
  refine ⟨img, ?_⟩
  simp only [parse_image, hph]
  rw [if_neg hsz]
  exact himg

theorem c1_parse_image_no_oob_witness : ∃ img, parse_image goodInput = POutcome.ok img :=
  c1_parse_image_no_oob goodInput (FileHeader.mk 126 122)
    (ImageHeader.mk 40 1 (-1) 32 CompressionType.Bitfields 4 0 0 0 0) ColorFormat.RGBA
    (by decide) (by decide) (by decide) (by decide) (by decide)

/-- Claim C2, counterexample: `c2_input` validates with width 0 (and height
1) but declares `image_bytes = 4`; the first pixel write then indexes into
the empty buffer and the decode crashes instead of producing an empty
buffer.  This refutes the claim for arbitrary `image_bytes`. -/
theorem c2_counterexample :
    parse_header c2_input = Except.ok c2_header ∧
    c2_header.image_header.width = 0 ∧
    parse_image c2_input = POutcome.crash := by decide

/-- Claim C2 (amended): if the headers validate with width 0 or |height| 0
and the declared `image_bytes` is 0, `parse_image` succeeds with the empty
pixel buffer and performs no indexing at all; with `image_bytes > 0` the
decode instead panics (see the counterexample). -/
theorem c2_empty_buffer (data : List Nat) (fh : FileHeader) (ihd : ImageHeader)
    (fmt : ColorFormat)
    (hph : parse_header data = Except.ok (Header.mk fh ihd fmt))
    (hsz : ¬ data.length < fh.size)
    (hdim : ihd.width = 0 ∨ ihd.height.natAbs = 0)
    (hib : ihd.image_bytes = 0) :
    parse_image data = POutcome.ok (Image.new ihd.width ihd.height.natAbs) ∧
    (Image.new ihd.width ihd.height.natAbs).data.length = 0 := by
  constructor
  · simp only [parse_image, hph]
    rw [if_neg hsz, hib]
    simp only [decodeLoop]
    rw [if_neg (by omega)]
  · rcases hdim with h | h <;> simp [Image.new, h]

theorem c2_empty_buffer_witness :
    parse_image c2e_input = POutcome.ok (Image.new 0 0) ∧
    (Image.new 0 0).data.length = 0 :=
  c2_empty_buffer c2e_input (FileHeader.mk 122 122)
    (ImageHeader.mk 40 0 0 32 CompressionType.Bitfields 0 0 0 0 0) ColorFormat.RGBA
    (by decide) (by decide) (by decide) (by decide)

/-- Claim C3, counterexample: `c3_input` declares size 0 and offset 122;
`parse_file_header`, `parse_header` and even `parse_image` all succeed, so
the invariant `offset <= size` does not hold for every successfully parsed
`FileHeader`. -/
theorem c3_counterexample :
    parse_file_header c3_input = Except.ok (FileHeader.mk 0 122) ∧
    parse_header c3_input = Except.ok c3_header ∧
    parse_image c3_input = POutcome.ok (Image.mk [9, 8, 7, 6] 1 1 1) ∧
    ¬ c3_header.file_header.offset ≤ c3_header.file_header.size := by decide

/-- Claim C3 (amended): parsing enforces no relation between `offset` and
`size`; the checks actually enforced are `offset <= data.length` (by
`parse_header`) and `size <= data.length` (additionally by `parse_image`
when it succeeds). -/
theorem c3_enforced_bounds (data : List Nat) (h : Header) (img : Image)
    (hph : parse_header data = Except.ok h)
    (hpi : parse_image data = POutcome.ok img) :
    h.file_header.offset ≤ data.length ∧ h.file_header.size ≤ data.length := by
  obtain ⟨-, hoff, -, -, -, -⟩ := parse_header_inv data h hph
  refine ⟨by omega, ?_⟩
  simp only [parse_image, hph] at hpi
  by_cases hsz : data.length < h.file_header.size
  · rw [if_pos hsz] at hpi
    exact (POutcome.noConfusion hpi)
  · omega

theorem c3_enforced_bounds_witness :
    goodHeader.file_header.offset ≤ goodInput.length ∧
    goodHeader.file_header.size ≤ goodInput.length :=
  c3_enforced_bounds goodInput goodHeader goodImage (by decide) (by decide)

/-- Claim C4, counterexample: `c4_input` declares a header-size field of
12345 (neither 40, the on-disk image-header length, nor 108, the value the
encoder writes) and is accepted by `parse_header`, so parsing does not
reject inputs whose header-size field differs from any fixed value. -/
theorem c4_counterexample :
    parse_header c4_input = Except.ok c4_header ∧
    c4_header.image_header.size = 12345 ∧
    c4_header.image_header.size ≠ 40 ∧
    c4_header.image_header.size ≠ 108 := by decide

/-- Claim C4 (amended): the header-size field is read but never validated:
any successfully parsed header carries whatever little-endian u32 stood at
byte 14 of the input, with no constraint on its value. -/
theorem c4_size_unvalidated (data : List Nat) (h : Header)
    (hph : parse_header data = Except.ok h) :
    h.image_header.size = u32_le (data.drop 14) := by
  obtain ⟨-, -, hih, -, -, -⟩ := parse_header_inv data h hph
  obtain ⟨-, -, -, heq⟩ := parse_image_header_inv (data.drop 14) h.image_header hih
  rw [heq]

theorem c4_size_unvalidated_witness :
    goodHeader.image_header.size = u32_le (goodInput.drop 14) :=
  c4_size_unvalidated goodInput goodHeader (by decide)

theorem parse_header_err (data : List Nat) (e : BMPError)
    (hfh : parse_file_header data = Except.error e) :
    parse_header data = Except.error e := by
  simp only [parse_header, hfh]

theorem parse_image_err (data : List Nat) (e : BMPError)
    (hph : parse_header data = Except.error e) :
    parse_image data = POutcome.err e := by
  simp only [parse_image, hph]

/-- Claim C5: once the structural checks pass (file header parsed, buffer at
least `offset` long, image header parsed), `parse_header` rejects with
`UnsupportedFormat` whenever the compression is not `Bitfields` or the bit
count is not 32.  Compression codes outside 0..3 map to `Unknown` via
`CompressionType.ofU32` inside `parse_image_header` and are rejected the
same way. -/
theorem c5_unsupported_rejection (data : List Nat) (fh : FileHeader) (ihd : ImageHeader)
    (hfh : parse_file_header data = Except.ok fh)
    (hoff : ¬ data.length < fh.offset)
    (hih : parse_image_header (data.drop 14) = Except.ok ihd)
    (hbad : ihd.compression ≠ CompressionType.Bitfields ∨ ihd.bit_count ≠ 32) :
    ∃ msg, parse_header data = Except.error (BMPError.UnsupportedFormat msg) := by
  simp only [parse_header, hfh, hih]
  rw [if_neg hoff]
  by_cases hcomp : ihd.compression ≠ CompressionType.Bitfields
  · rw [if_pos hcomp]
    exact ⟨_, rfl⟩
  · rw [if_neg hcomp]
    have hbc : ihd.bit_count ≠ 32 := by
      rcases hbad with h | h
      · exact absurd h hcomp
      · exact h
    rw [if_pos hbc]
    exact ⟨_, rfl⟩

theorem c5_unsupported_rejection_witness :
    (∃ msg, parse_header c5a_input = Except.error (BMPError.UnsupportedFormat msg)) ∧
    (∃ msg, parse_header c5b_input = Except.error (BMPError.UnsupportedFormat msg)) ∧
    (∃ msg, parse_header c5c_input = Except.error (BMPError.UnsupportedFormat msg)) :=
  ⟨c5_unsupported_rejection c5a_input (FileHeader.mk 126 122)
      (ImageHeader.mk 40 1 (-1) 24 CompressionType.Bitfields 4 0 0 0 0)
      (by decide) (by decide) (by decide) (by decide),
   c5_unsupported_rejection c5b_input (FileHeader.mk 126 122)
      (ImageHeader.mk 40 1 (-1) 32 CompressionType.Uncompressed 4 0 0 0 0)
      (by decide) (by decide) (by decide) (by decide),
   c5_unsupported_rejection c5c_input (FileHeader.mk 126 122)
      (ImageHeader.mk 40 1 (-1) 32 CompressionType.Unknown 4 0 0 0 0)
      (by decide) (by decide) (by decide) (by decide)⟩

/-- Claim C6: inputs shorter than 14 bytes make `parse_header` (hence
`parse_image`) fail with `InvalidFormat`, and inputs of at least 14 bytes
whose first two bytes are not the ASCII codes of B (66) and M (77) fail with
`InvalidFormat` as well. -/
theorem c6_signature_rejection (data : List Nat) :
    (data.length < 14 →
      ∃ msg, parse_header data = Except.error (BMPError.InvalidFormat msg) ∧
        parse_image data = POutcome.err (BMPError.InvalidFormat msg)) ∧
    (14 ≤ data.length → (byte data 0 ≠ 66 ∨ byte data 1 ≠ 77) →
      ∃ msg, parse_header data = Except.error (BMPError.InvalidFormat msg) ∧
        parse_image data = POutcome.err (BMPError.InvalidFormat msg)) := by
  constructor
  · intro hlen
    have hfh : parse_file_header data =
        Except.error (BMPError.InvalidFormat ("insufficient file header length")) := by
      unfold parse_file_header
      rw [if_pos hlen]
    have hph := parse_header_err data _ hfh
    exact ⟨_, hph, parse_image_err data _ hph⟩
  · intro hlen hbm
    have hfh : parse_file_header data =
        Except.error (BMPError.InvalidFormat ("header did not start with BM")) := by
      unfold parse_file_header
      rw [if_neg (by omega), if_pos hbm]
    have hph := parse_header_err data _ hfh
    exact ⟨_, hph, parse_image_err data _ hph⟩

theorem c6_signature_rejection_witness :
    (∃ msg, parse_header ([] : List Nat) = Except.error (BMPError.InvalidFormat msg) ∧
      parse_image ([] : List Nat) = POutcome.err (BMPError.InvalidFormat msg)) ∧
    (∃ msg, parse_header c6_input = Except.error (BMPError.InvalidFormat msg) ∧
      parse_image c6_input = POutcome.err (BMPError.InvalidFormat msg)) :=
  ⟨(c6_signature_rejection ([] : List Nat)).1 (by decide),
   (c6_signature_rejection c6_input).2 (by decide) (by decide)⟩

/-- Claim C7: given at least 16 bytes of mask block, `parse_color_format`
resolves the mask set r = FF000000, g = 00FF0000, b = 0000FF00,
a = 000000FF to `ColorFormat.RGBA`, and rejects every other mask set with
`UnsupportedFormat`. -/
theorem c7_mask_resolution (data : List Nat) (hlen : 16 ≤ data.length) :
    (ColorMasks.mk (u32_le data) (u32_le (data.drop 4)) (u32_le (data.drop 8))
        (u32_le (data.drop 12)) = ColorFormat.RGBA.masks →
      parse_color_format data = Except.ok ColorFormat.RGBA) ∧
    (ColorMasks.mk (u32_le data) (u32_le (data.drop 4)) (u32_le (data.drop 8))
        (u32_le (data.drop 12)) ≠ ColorFormat.RGBA.masks →
      ∃ msg, parse_color_format data = Except.error (BMPError.UnsupportedFormat msg)) := by
  have heq := parse_color_format_eq data (by omega)
  constructor
  · intro hm
    rw [heq]
    unfold ColorFormat.tryFromMasks
    rw [if_pos hm]
  · intro hm
    rw [heq]
    unfold ColorFormat.tryFromMasks
    rw [if_neg hm]
    exact ⟨_, rfl⟩

theorem c7_mask_resolution_witness :
    parse_color_format rgbaMaskBytes = Except.ok ColorFormat.RGBA ∧
    (∃ msg, parse_color_format swappedMaskBytes =
      Except.error (BMPError.UnsupportedFormat msg)) :=
  ⟨(c7_mask_resolution rgbaMaskBytes (by decide)).1 (by decide),
   (c7_mask_resolution swappedMaskBytes (by decide)).2 (by decide)⟩

/-- Claim C8: a successful decode allocates a `width` by `|height|` buffer
(logical height is the absolute value of the signed height field, and no
branch on its sign ever inverts the row order), reads the input in groups
of 4 bytes from the pixel-data offset as (r, g, b, a), and writes quad `p`
at position (p mod width, p div width) - row-major scan order with x
increasing first and rows filling top-down in increasing logical y.  The
`image_bytes % 4 = 0` hypothesis pins the quad count to
`image_bytes / 4`. -/
theorem c8_scan_order (data : List Nat) (h : Header) (img : Image)
    (hph : parse_header data = Except.ok h)
    (hpi : parse_image data = POutcome.ok img)
    (h4 : h.image_header.image_bytes % 4 = 0) :
    img.width = h.image_header.width ∧
    img.height = h.image_header.height.natAbs ∧
    ∀ p, p < h.image_header.image_bytes / 4 →
      Image.read img (p % h.image_header.width) (p / h.image_header.width) =
        some (RGBA.mk (byte data (h.file_header.offset + 4 * p))
          (byte data (h.file_header.offset + 4 * p + 1))
          (byte data (h.file_header.offset + 4 * p + 2))
          (byte data (h.file_header.offset + 4 * p + 3))) := by
  simp only [parse_image, hph] at hpi
  by_cases hsz : data.length < h.file_header.size
  · rw [if_pos hsz] at hpi
    exact (POutcome.noConfusion hpi)
  rw [if_neg hsz] at hpi
  obtain ⟨cW, cH, cRW, cL, cZ, cIn, cOut⟩ :=
    decodeLoop_char h.image_header.image_bytes (data.drop h.file_header.offset)
      h.image_header.image_bytes 0 0 0
      (Image.new h.image_header.width h.image_header.height.natAbs) img hpi
      rfl (by simp [Image.new, RGBA_BYTES]) (by simp) (fun hh => hh) h4
  refine ⟨cW, cH, ?_⟩
  intro p hp
  by_cases hw : h.image_header.width = 0
  · exfalso
    have hz := cZ hw
    omega
  · have hwpos : 0 < h.image_header.width := Nat.pos_of_ne_zero hw
    have hib4 : 4 * p + 4 ≤ h.image_header.image_bytes := by omega
    have hrow : img.row_width = h.image_header.width := cRW
    have hidx : RGBA_BYTES * (img.row_width *
        (p / h.image_header.width) + p % h.image_header.width) = 4 * p := by
      rw [hrow, Nat.div_add_mod p h.image_header.width]
      rfl
    have hb : ∀ k, k < 4 → img.data[4 * p + k]? =
        some (byte data (h.file_header.offset + 4 * p + k)) := by
      intro k hk
      obtain ⟨e1, e2, e3⟩ := cIn (4 * p + k) (by omega) (by omega)
      rw [List.length_drop] at e2
      rw [e1, List.getElem?_drop]
      have harith : h.file_header.offset + (4 * p + k) =
          h.file_header.offset + 4 * p + k := by omega
      rw [harith]
      exact byte_getElem (by omega)
    have hb0 : img.data[4 * p]? =
        some (byte data (h.file_header.offset + 4 * p)) := by
      have := hb 0 (by omega)
      simpa using this
    simp only [Image.read]
    rw [hidx, hb0, hb 1 (by omega), hb 2 (by omega), hb 3 (by omega)]

theorem c8_scan_order_witness :
    goodImage.width = goodHeader.image_header.width ∧
    goodImage.height = goodHeader.image_header.height.natAbs ∧
    ∀ p, p < goodHeader.image_header.image_bytes / 4 →
      Image.read goodImage (p % goodHeader.image_header.width)
          (p / goodHeader.image_header.width) =
        some (RGBA.mk (byte goodInput (goodHeader.file_header.offset + 4 * p))
          (byte goodInput (goodHeader.file_header.offset + 4 * p + 1))
          (byte goodInput (goodHeader.file_header.offset + 4 * p + 2))
          (byte goodInput (goodHeader.file_header.offset + 4 * p + 3))) :=
  c8_scan_order goodInput goodHeader goodImage (by decide) (by decide) (by decide)

/-- Claim C9: encoding the 2 by 2 all-(255,0,0,255) buffer (built from
`Image::new` by four in-bounds writes, as witnessed by the first conjunct)
produces exactly 138 bytes; bytes 0-1 are B, M; the little-endian u32 at
bytes 2-5 (file size) is 138; the little-endian u32 at bytes 10-13
(pixel-data offset) is 122; and the little-endian i32 at bytes 22-25
(height) is -2. -/
theorem c9_concrete_encode :
    ((((Image.new 2 2).write 0 0 (RGBA.mk 255 0 0 255)).bind
        (fun im => im.write 1 0 (RGBA.mk 255 0 0 255))).bind
        (fun im => im.write 0 1 (RGBA.mk 255 0 0 255))).bind
        (fun im => im.write 1 1 (RGBA.mk 255 0 0 255)) = some c9_image ∧
    (write_image c9_image).length = 138 ∧
    byte (write_image c9_image) 0 = 66 ∧ byte (write_image c9_image) 1 = 77 ∧
    u32_le ((write_image c9_image).drop 2) = 138 ∧
    u32_le ((write_image c9_image).drop 10) = 122 ∧
    i32_le ((write_image c9_image).drop 22) = -2 := by decide
